import Mathlib

/-!
# BINK runtime codec adapter

A shallow embedding of `Source/RuntimeAudioImporter/Private/Codecs/BINK_RuntimeCodec.cpp`.

The file translated here is the adapter itself: `GetCompressionLevelFromQualityIndex`,
`CheckAudioFormat`, `GetHeaderInfo`, `Encode` and `Decode`.  What the adapter calls but
does not define is treated as follows:

* the Bink engine (`FBinkAudioInfo::ReadCompressedInfo`, `FBinkAudioInfo::ExpandFile`,
  `UECompressBinkAudio`) and the sample transcoder `FRAW_RuntimeCodec::TranscodeRAWData`
  are arbitrary functions, the fields of `Collaborators`;
* the build switch `WITH_RUNTIMEAUDIOIMPORTER_BINK_SUPPORT` is a `Bool` argument;
* the math helper `FMath::GetMappedRangeValueClamped` and the accessor `GetAudioFormat`
  are modelled after the specification; the helper is evaluated in exact rational
  arithmetic, and `level_rounding_margin` bounds what rounding could change.

Out-parameters (`HeaderInfo&`, `EncodedData&`, `DecodedData&`) are passed in and returned
next to the `bool` result.  Buffers (pointer plus element count) are lists.  Machine
integers are `Nat`/`Int` with the conversions written out; the build is a 64-bit one
(`size_t` is 64 bits wide), the only kind on which the Bink engine is available.
`float` values that the adapter only stores or hands on are elements of a type
parameter `F`.  Logging is a side channel without influence on results and is left out.
-/

namespace BinkRuntimeCodec

/-! ## Data model -/

/-- Format tags of `ERuntimeAudioFormat`. -/
inductive ERuntimeAudioFormat where
  | Auto
  | Mp3
  | Wav
  | Flac
  | OggVorbis
  | Bink
  | Invalid
  deriving DecidableEq, Repr

/-- The engine's `FSoundQualityInfo`, filled by `ReadCompressedInfo`:
`NumChannels` is an `int32`, `SampleRate` and `SampleDataSize` are `uint32`
(`SampleDataSize` counts bytes of 16-bit samples), `Duration` is a `float`. -/
structure FSoundQualityInfo (F : Type) where
  NumChannels : Int
  SampleRate : Nat
  SampleDataSize : Nat
  Duration : F
  deriving DecidableEq

/-- The ranges of the machine types of the fields of `FSoundQualityInfo`. -/
def FSoundQualityInfo.InRange {F : Type} (Info : FSoundQualityInfo F) : Prop :=
  -(2 : Int) ^ 31 ≤ Info.NumChannels ∧ Info.NumChannels < (2 : Int) ^ 31 ∧
  Info.SampleRate < 2 ^ 32 ∧ Info.SampleDataSize < 2 ^ 32

/-- The caller's `FRuntimeAudioHeaderInfo`; `PCMDataSize` is an `int64`. -/
structure FRuntimeAudioHeaderInfo (F : Type) where
  Duration : F
  SampleRate : Int
  NumOfChannels : Int
  PCMDataSize : Int
  AudioFormat : ERuntimeAudioFormat
  deriving DecidableEq

/-- The adapter's `FEncodedAudioStruct`: the bitstream (`FRuntimeBulkDataBuffer<uint8>`)
and its format tag. -/
structure FEncodedAudioStruct where
  AudioData : List Nat
  AudioFormat : ERuntimeAudioFormat
  deriving DecidableEq

/-- The adapter's `FSoundWaveBasicStruct`. -/
structure FSoundWaveBasicStruct (F : Type) where
  NumOfChannels : Int
  SampleRate : Int
  Duration : F
  deriving DecidableEq

/-- The adapter's `FPCMStruct`: interleaved float samples and the frame count
(`uint32 PCMNumOfFrames`). -/
structure FPCMStruct (F : Type) where
  PCMData : List F
  PCMNumOfFrames : Nat
  deriving DecidableEq

/-- The adapter's `FDecodedAudioStruct`. -/
structure FDecodedAudioStruct (F : Type) where
  SoundWaveBasicInfo : FSoundWaveBasicStruct F
  PCMInfo : FPCMStruct F
  deriving DecidableEq

/-- What `BINK_RuntimeCodec.cpp` calls and does not define.

* `ReadCompressedInfo Data` is `FBinkAudioInfo::ReadCompressedInfo(Data, Num, &Info)`:
  `none` when it returns `false`, `some Info` when it returns `true`.
* `ExpandFile Data Info i` is byte `i` that `FBinkAudioInfo::ExpandFile` writes to the
  destination buffer (the buffer keeps the size it was allocated with).
* `UECompressBinkAudio WavData WavDataLen WavRate WavChannels Quality GenerateSeekTable`
  is the buffer `(*OutData, *OutDataLen)` after the call; the outputs start as
  `(nullptr, 0)`, so an engine that leaves them alone returns `[]`.
* `TranscodeFloatToInt16` is `FRAW_RuntimeCodec::TranscodeRAWData<float, int16>`, giving
  the new buffer and the size it reports; `TranscodeInt16ToFloat` is
  `TranscodeRAWData<int16, float>` followed by wrapping the result as a bulk buffer, on the
  source buffer and the count the adapter passes. -/
structure Collaborators (F : Type) where
  ReadCompressedInfo : List Nat → Option (FSoundQualityInfo F)
  ExpandFile : List Nat → FSoundQualityInfo F → Nat → Nat
  UECompressBinkAudio : List Int → Int → Int → Int → Nat → Nat → List Nat
  TranscodeFloatToInt16 : List F → Int → List Int × Int
  TranscodeInt16ToFloat : List Nat → Int → List F

/-! ## Quality mapping -/

namespace FMath

/-- Modelled from the spec: `FMath::Clamp` of the engine's math library, which is not part
of the translated file ("out-of-range inputs are clamped, never rejected"). -/
def Clamp (X Min Max : ℚ) : ℚ :=
  if X < Min then Min else if X < Max then X else Max

/-- Modelled from the spec: `FMath::GetRangePct`, the position of `Value` in the input
range as a fraction; a range that is (nearly) a single point yields 0 or 1. -/
def GetRangePct (MinValue MaxValue Value : ℚ) : ℚ :=
  if |MaxValue - MinValue| ≤ 1 / 100000000 then (if MaxValue ≤ Value then 1 else 0)
  else (Value - MinValue) / (MaxValue - MinValue)

/-- Modelled from the spec: `FMath::Lerp`, "a linear interpolation between
(qualityLowest → paramWorst) and (qualityHighest → paramBest)". -/
def Lerp (A B Alpha : ℚ) : ℚ :=
  A + Alpha * (B - A)

/-- Modelled from the spec: `FMath::GetMappedRangeValueClamped` of the engine's math
library, which the translated file calls and does not define: "linear interpolation with
clamping", in exact arithmetic. -/
def GetMappedRangeValueClamped (InputRange OutputRange : ℚ × ℚ) (Value : ℚ) : ℚ :=
  Lerp OutputRange.1 OutputRange.2 (Clamp (GetRangePct InputRange.1 InputRange.2 Value) 0 1)

end FMath

/-- Conversion of a floating value to `uint8` on `return`: the fraction is discarded
(rounding toward zero). -/
def truncToUInt8 (x : ℚ) : Nat :=
  ((if 0 ≤ x then ⌊x⌋ else ⌈x⌉) % 256).toNat

/-- Lines 24-35: `GetCompressionLevelFromQualityIndex`, with
`BinkLowest = 4`, `BinkHighest = 0`, `QualityLowest = 1`, `QualityHighest = 40`. -/
def GetCompressionLevelFromQualityIndex (InQualityIndex : Int) : Nat :=
  truncToUInt8 (FMath.GetMappedRangeValueClamped (1, 40) (4, 0) (InQualityIndex : ℚ))

/-- The quality mapping in the words of the specification: clamp the quality index to
`[1, 40]`, interpolate linearly between (1 → 4) and (40 → 0), keep the integer part. -/
def QualityMapper_map (q : Int) : Nat :=
  (⌊(4 * (40 - ((min (max q 1) 40 : Int) : ℚ))) / 39⌋).toNat

/-! ## Integer conversions -/

/-- Conversion of a 64-bit signed value to `size_t` (64 bits, unsigned). -/
def toUInt64 (i : Int) : Nat :=
  (i % 2 ^ 64).toNat

/-- Conversion of a `size_t` value to `int64`. -/
def toInt64 (n : Nat) : Int :=
  ((n : Int) + 2 ^ 63) % 2 ^ 64 - 2 ^ 63

/-- Conversion of a `size_t` value to `uint32`. -/
def toUInt32 (n : Nat) : Nat :=
  n % 2 ^ 32

/-! ## The adapter -/

/-- Modelled from the spec: `FBINK_RuntimeCodec::GetAudioFormat`, defined in the class
header, which is not part of the translated file; it yields the adapter's format tag. -/
def GetAudioFormat : ERuntimeAudioFormat :=
  ERuntimeAudioFormat.Bink

/-- Lines 48-64: `FBINK_RuntimeCodec::CheckAudioFormat`. -/
def CheckAudioFormat {F : Type} (WITH_BINK_SUPPORT : Bool) (Engine : Collaborators F)
    (AudioData : List Nat) : Bool :=
  if WITH_BINK_SUPPORT then
    match Engine.ReadCompressedInfo AudioData with
    | none => false
    | some SoundQualityInfo =>
      if SoundQualityInfo.SampleDataSize = 0 then false else true
  else false

/-- Lines 66-94: `FBINK_RuntimeCodec::GetHeaderInfo`.  The second component is the
caller's `HeaderInfo` after the call.  `PCMDataSize` is computed in `size_t` as
`(SampleDataSize / sizeof(int16)) * sizeof(float)` and stored in an `int64`. -/
def GetHeaderInfo {F : Type} (WITH_BINK_SUPPORT : Bool) (Engine : Collaborators F)
    (EncodedData : FEncodedAudioStruct) (HeaderInfo : FRuntimeAudioHeaderInfo F) :
    Bool × FRuntimeAudioHeaderInfo F :=
  if WITH_BINK_SUPPORT then
    match Engine.ReadCompressedInfo EncodedData.AudioData with
    | none => (false, HeaderInfo)
    | some SoundQualityInfo =>
      if SoundQualityInfo.SampleDataSize = 0 then (false, HeaderInfo)
      else
        (true,
          { Duration := SoundQualityInfo.Duration
            SampleRate := SoundQualityInfo.SampleRate
            NumOfChannels := SoundQualityInfo.NumChannels
            PCMDataSize := toInt64 (((SoundQualityInfo.SampleDataSize / 2) * 4) % 2 ^ 64)
            AudioFormat := GetAudioFormat })
  else (false, HeaderInfo)

/-- Lines 96-126: `FBINK_RuntimeCodec::Encode`.  The second component is the caller's
`EncodedData` after the call; its `AudioData` is assigned before the emptiness test. -/
def Encode {F : Type} (WITH_BINK_SUPPORT : Bool) (Engine : Collaborators F)
    (DecodedData : FDecodedAudioStruct F) (EncodedData : FEncodedAudioStruct)
    (Quality : Nat) : Bool × FEncodedAudioStruct :=
  if WITH_BINK_SUPPORT then
    let CompressionLevel := GetCompressionLevelFromQualityIndex (Quality : Int)
    let Temp := Engine.TranscodeFloatToInt16 DecodedData.PCMInfo.PCMData
      (DecodedData.PCMInfo.PCMData.length : Int)
    let CompressedData := Engine.UECompressBinkAudio Temp.1 Temp.2
      DecodedData.SoundWaveBasicInfo.SampleRate DecodedData.SoundWaveBasicInfo.NumOfChannels
      CompressionLevel 1
    let Encoded : FEncodedAudioStruct := { EncodedData with AudioData := CompressedData }
    if (Encoded.AudioData.length : Int) ≤ 0 then (false, Encoded) else (true, Encoded)
  else (false, EncodedData)

/-- Line 151: `PCMData.Num() / SoundQualityInfo.NumChannels / sizeof(int16)` stored in
the `uint32` frame count; `none` when the divisor `NumChannels` is zero.  The first
division is a signed 64-bit one (rounding toward zero), the second is done in `size_t`. -/
def FramesOf (Num : Nat) (NumChannels : Int) : Option Nat :=
  if NumChannels = 0 then none
  else some (toUInt32 (toUInt64 (Int.tdiv (Num : Int) NumChannels) / 2))

/-- Lines 128-175: `FBINK_RuntimeCodec::Decode`.  The result is `none` when the call has
no defined result (integer division by a zero channel count); otherwise the `bool`
returned and the caller's `DecodedData` after the call. -/
def Decode {F : Type} (WITH_BINK_SUPPORT : Bool) (Engine : Collaborators F)
    (EncodedData : FEncodedAudioStruct) (DecodedData : FDecodedAudioStruct F) :
    Option (Bool × FDecodedAudioStruct F) :=
  if WITH_BINK_SUPPORT then
    match Engine.ReadCompressedInfo EncodedData.AudioData with
    | none => some (false, DecodedData)
    | some SoundQualityInfo =>
      let PCMData : List Nat := (List.range SoundQualityInfo.SampleDataSize).map
        (fun i => Engine.ExpandFile EncodedData.AudioData SoundQualityInfo i % 256)
      match FramesOf PCMData.length SoundQualityInfo.NumChannels with
      | none => none
      | some Frames =>
        some (true,
          { PCMInfo :=
              { PCMNumOfFrames := Frames
                PCMData := Engine.TranscodeInt16ToFloat PCMData (PCMData.length : Int) }
            SoundWaveBasicInfo :=
              { Duration := SoundQualityInfo.Duration
                NumOfChannels := SoundQualityInfo.NumChannels
                SampleRate := SoundQualityInfo.SampleRate } })
  else some (false, DecodedData)

/-! ## Sample collaborators used for concrete evaluations -/

/-- A header record with the given channel count and native decoded size. -/
def sampleInfo (NumChannels : Int) (SampleDataSize : Nat) : FSoundQualityInfo Int :=
  { NumChannels := NumChannels, SampleRate := 48000, SampleDataSize := SampleDataSize,
    Duration := 1 }

/-- An engine whose header parser accepts every buffer and reports `Info`, whose
decompressor writes zero bytes, and whose compressor returns `Out` for every input. -/
def sampleEngine (Info : Option (FSoundQualityInfo Int)) (Out : List Nat) :
    Collaborators Int :=
  { ReadCompressedInfo := fun _ => Info
    ExpandFile := fun _ _ _ => 0
    UECompressBinkAudio := fun _ _ _ _ _ _ => Out
    TranscodeFloatToInt16 := fun Data Num => (Data, Num)
    TranscodeInt16ToFloat := fun Data _ => Data.map (fun b => (b : Int)) }

/-- An engine whose compressor returns its `Quality` argument as the only byte. -/
def echoEngine : Collaborators Int :=
  { ReadCompressedInfo := fun _ => none
    ExpandFile := fun _ _ _ => 0
    UECompressBinkAudio := fun _ _ _ _ Quality _ => [Quality]
    TranscodeFloatToInt16 := fun Data Num => (Data, Num)
    TranscodeInt16ToFloat := fun Data _ => Data.map (fun b => (b : Int)) }

/-- An empty bitstream holder. -/
def emptyEncoded : FEncodedAudioStruct :=
  { AudioData := [], AudioFormat := ERuntimeAudioFormat.Invalid }

/-- A caller-side header record with recognisable field values. -/
def sampleHeader : FRuntimeAudioHeaderInfo Int :=
  { Duration := 7, SampleRate := 11, NumOfChannels := 13, PCMDataSize := 17,
    AudioFormat := ERuntimeAudioFormat.Invalid }

/-- Decoded audio with the given samples, two channels at 48 kHz. -/
def sampleDecoded (Samples : List Int) : FDecodedAudioStruct Int :=
  { SoundWaveBasicInfo := { NumOfChannels := 2, SampleRate := 48000, Duration := 0 }
    PCMInfo := { PCMData := Samples, PCMNumOfFrames := Samples.length / 2 } }

/-- The decoded audio that `Decode` produces for a header with 2 channels and 8 bytes
of sample data expanded to zero bytes. -/
def twoFramesDecoded : FDecodedAudioStruct Int :=
  { SoundWaveBasicInfo := { NumOfChannels := 2, SampleRate := 48000, Duration := 1 }
    PCMInfo := { PCMData := [0, 0, 0, 0, 0, 0, 0, 0], PCMNumOfFrames := 2 } }

/-! ## Auxiliary facts -/

/-- On the ranges of `GetCompressionLevelFromQualityIndex` the clamped interpolation is
`4 * (40 - q') / 39` for the quality index `q'` clamped to `[1, 40]`. -/
theorem mapped_value_eq (q : Int) :
    FMath.GetMappedRangeValueClamped (1, 40) (4, 0) (q : ℚ) =
      (4 * (40 - ((min (max q 1) 40 : Int) : ℚ))) / 39 := by
  have h39 : ((40 : ℚ) - 1) = 39 := by norm_num
  simp only [FMath.GetMappedRangeValueClamped, FMath.Lerp, FMath.GetRangePct, h39]
  have hne : ¬ (|(39 : ℚ)| ≤ 1 / 100000000) := by
    rw [abs_of_pos (by norm_num : (0 : ℚ) < 39)]
    norm_num
  rw [if_neg hne]
  unfold FMath.Clamp
  rcases lt_or_le q 1 with h1 | h1
  · have hq : ((q : ℚ) - 1) / 39 < 0 := by
      have : (q : ℚ) < 1 := by exact_mod_cast h1
      apply div_neg_of_neg_of_pos <;> linarith
    rw [if_pos hq, max_eq_right (le_of_lt h1), min_eq_left (by norm_num)]
    norm_num
  · have hq : ¬ (((q : ℚ) - 1) / 39 < 0) := by
      have : (1 : ℚ) ≤ q := by exact_mod_cast h1
      have : (0 : ℚ) ≤ ((q : ℚ) - 1) / 39 := by apply div_nonneg <;> linarith
      linarith
    rw [if_neg hq, max_eq_left h1]
    rcases lt_or_le q 40 with h2 | h2
    · have hq2 : ((q : ℚ) - 1) / 39 < 1 := by
        have : (q : ℚ) < 40 := by exact_mod_cast h2
        rw [div_lt_one (by norm_num)]; linarith
      rw [if_pos hq2, min_eq_left (le_of_lt h2)]
      field_simp; ring
    · have hq2 : ¬ (((q : ℚ) - 1) / 39 < 1) := by
        have : (40 : ℚ) ≤ q := by exact_mod_cast h2
        rw [div_lt_one (by norm_num)]; linarith
      rw [if_neg hq2, min_eq_right h2]
      norm_num

/-- The interpolated value lies between 0 and 4. -/
theorem mapped_value_bounds (q : Int) :
    0 ≤ (4 * (40 - ((min (max q 1) 40 : Int) : ℚ))) / 39 ∧
      (4 * (40 - ((min (max q 1) 40 : Int) : ℚ))) / 39 ≤ 4 := by
  have h1 : (1 : Int) ≤ min (max q 1) 40 := le_min (le_max_right _ _) (by norm_num)
  have h2 : min (max q 1) 40 ≤ (40 : Int) := min_le_right _ _
  have h1' : (1 : ℚ) ≤ ((min (max q 1) 40 : Int) : ℚ) := by exact_mod_cast h1
  have h2' : ((min (max q 1) 40 : Int) : ℚ) ≤ 40 := by exact_mod_cast h2
  constructor
  · apply div_nonneg <;> linarith
  · rw [div_le_iff₀ (by norm_num)]; linarith

/-- On values between 0 and 4 the conversion to `uint8` is the floor. -/
theorem truncToUInt8_of_bounds (x : ℚ) (h0 : 0 ≤ x) (h4 : x ≤ 4) :
    truncToUInt8 x = (⌊x⌋).toNat ∧ (⌊x⌋).toNat ≤ 4 := by
  have hf0 : 0 ≤ ⌊x⌋ := Int.floor_nonneg.mpr h0
  have hf4 : ⌊x⌋ ≤ 4 := by
    have : ⌊x⌋ ≤ ⌊(4 : ℚ)⌋ := Int.floor_le_floor h4
    simpa using this
  unfold truncToUInt8
  rw [if_pos h0]
  constructor
  · congr 1
    omega
  · omega

/-- The source function agrees with the mapping in the words of the specification. -/
theorem level_eq_map (q : Int) :
    GetCompressionLevelFromQualityIndex q = QualityMapper_map q := by
  unfold GetCompressionLevelFromQualityIndex QualityMapper_map
  rw [mapped_value_eq]
  exact (truncToUInt8_of_bounds _ (mapped_value_bounds q).1 (mapped_value_bounds q).2).1

/-- The level never exceeds 4. -/
theorem level_le_four (q : Int) : GetCompressionLevelFromQualityIndex q ≤ 4 := by
  rw [level_eq_map]
  exact (truncToUInt8_of_bounds _ (mapped_value_bounds q).1 (mapped_value_bounds q).2).2

/-- The mapping of the specification is antitone. -/
theorem map_antitone (q1 q2 : Int) (h : q1 ≤ q2) :
    QualityMapper_map q2 ≤ QualityMapper_map q1 := by
  unfold QualityMapper_map
  apply Int.toNat_le_toNat
  apply Int.floor_le_floor
  have hc : min (max q1 1) 40 ≤ min (max q2 1) 40 :=
    min_le_min (max_le_max h le_rfl) le_rfl
  have hc' : ((min (max q1 1) 40 : Int) : ℚ) ≤ ((min (max q2 1) 40 : Int) : ℚ) := by
    exact_mod_cast hc
  apply div_le_div_of_nonneg_right _ (by norm_num)
  linarith

/-- Quality 1 maps to level 4. -/
theorem map_one : QualityMapper_map 1 = 4 := by
  unfold QualityMapper_map
  norm_num
  rfl

/-- Quality 40 maps to level 0. -/
theorem map_forty : QualityMapper_map 40 = 0 := by
  unfold QualityMapper_map
  norm_num

/-- Below the range the mapping is that of quality 1. -/
theorem map_low (q : Int) (h : q ≤ 1) : QualityMapper_map q = QualityMapper_map 1 := by
  unfold QualityMapper_map
  rw [max_eq_right h]
  norm_num

/-- Above the range the mapping is that of quality 40. -/
theorem map_high (q : Int) (h : 40 ≤ q) : QualityMapper_map q = QualityMapper_map 40 := by
  unfold QualityMapper_map
  rw [max_eq_left (by omega : (1:Int) ≤ q), min_eq_right h]
  norm_num

/-- Margin of the exact model against rounding of the floating evaluation: strictly
between the two ends of the quality range the interpolated value is at least `1 / 39`
away from every integer, so an error of up to `1 / 40` in its evaluation does not change
the level; at and beyond the ends the clamped fraction is exactly 0 or 1. -/
theorem level_rounding_margin (q : Int) (h1 : 1 < q) (h2 : q < 40) (e : ℚ)
    (he : |e| ≤ 1 / 40) :
    truncToUInt8 (FMath.GetMappedRangeValueClamped (1, 40) (4, 0) (q : ℚ) + e) =
      GetCompressionLevelFromQualityIndex q := by
  have hlo : -(1 / 40 : ℚ) ≤ e := (abs_le.mp he).1
  have hhi : e ≤ (1 / 40 : ℚ) := (abs_le.mp he).2
  unfold GetCompressionLevelFromQualityIndex
  rw [mapped_value_eq, max_eq_left (le_of_lt h1), min_eq_left (le_of_lt h2)]
  obtain ⟨k, r, hk0, hk3, hr1, hr38, hm⟩ :
      ∃ k r : Int, 0 ≤ k ∧ k ≤ 3 ∧ 1 ≤ r ∧ r ≤ 38 ∧ 4 * (40 - q) = 39 * k + r :=
    ⟨4 * (40 - q) / 39, 4 * (40 - q) % 39, by omega, by omega, by omega, by omega, by omega⟩
  have hmq : (4 * (40 - (q : ℚ))) = 39 * (k : ℚ) + (r : ℚ) := by exact_mod_cast hm
  have hr1q : (1 : ℚ) ≤ (r : ℚ) := by exact_mod_cast hr1
  have hr38q : (r : ℚ) ≤ 38 := by exact_mod_cast hr38
  have hk0q : (0 : ℚ) ≤ (k : ℚ) := by exact_mod_cast hk0
  have hx : (4 * (40 - (q : ℚ))) / 39 = (k : ℚ) + (r : ℚ) / 39 := by
    rw [hmq]
    field_simp
    ring
  rw [hx]
  have hf1 : ⌊(k : ℚ) + (r : ℚ) / 39 + e⌋ = k := by
    rw [Int.floor_eq_iff]
    constructor <;> linarith
  have hf2 : ⌊(k : ℚ) + (r : ℚ) / 39⌋ = k := by
    rw [Int.floor_eq_iff]
    constructor <;> linarith
  have hp1 : (0 : ℚ) ≤ (k : ℚ) + (r : ℚ) / 39 + e := by linarith
  have hp2 : (0 : ℚ) ≤ (k : ℚ) + (r : ℚ) / 39 := by linarith
  unfold truncToUInt8
  rw [if_pos hp1, if_pos hp2, hf1, hf2]

/-- Storing a `size_t` value below `2 ^ 63` in an `int64` keeps it. -/
theorem toInt64_small (n : Nat) (h : n < 2 ^ 63) : toInt64 n = (n : Int) := by
  unfold toInt64
  omega

/-- For a `uint32` byte count the header size computation does not wrap. -/
theorem headerSize_eq (S : Nat) (h : S < 2 ^ 32) :
    toInt64 (((S / 2) * 4) % 2 ^ 64) = (((S / 2) * 4 : Nat) : Int) := by
  have h1 : (S / 2) * 4 < 2 ^ 63 := by omega
  have h2 : ((S / 2) * 4) % 2 ^ 64 = (S / 2) * 4 := Nat.mod_eq_of_lt (by omega)
  rw [h2, toInt64_small _ h1]

/-- For a `uint32` byte count and a positive channel count the frame computation is
the plain quotient: no conversion wraps. -/
theorem FramesOf_pos (S : Nat) (c : Int) (hS : S < 2 ^ 32) (hc : 1 ≤ c) :
    FramesOf S c = some ((S / c.toNat) / 2) := by
  obtain ⟨n, rfl⟩ := Int.eq_ofNat_of_zero_le (by omega : 0 ≤ c)
  have hn : (n : Int) ≠ 0 := by omega
  unfold FramesOf
  rw [if_neg hn]
  have hdiv : Int.tdiv (S : Int) (n : Int) = ((S / n : Nat) : Int) :=
    (Int.ofNat_tdiv S n).symm
  have hle : S / n ≤ S := Nat.div_le_self _ _
  rw [hdiv, Int.toNat_ofNat]
  generalize S / n = m at hle
  simp only [toUInt64, toUInt32]
  congr 1
  omega

/-- When `GetHeaderInfo` succeeds on a header in range, the size it stores is
`(SampleDataSize / 2) * 4`: neither the `size_t` product nor the `int64` store wraps. -/
theorem GetHeaderInfo_size_of_success {F : Type} (Engine : Collaborators F)
    (EncodedData : FEncodedAudioStruct) (HeaderInfo : FRuntimeAudioHeaderInfo F)
    (Info : FSoundQualityInfo F)
    (hparse : Engine.ReadCompressedInfo EncodedData.AudioData = some Info)
    (hrange : Info.InRange)
    (hsuccess : (GetHeaderInfo true Engine EncodedData HeaderInfo).1 = true) :
    (GetHeaderInfo true Engine EncodedData HeaderInfo).2.PCMDataSize =
      (((Info.SampleDataSize / 2) * 4 : Nat) : Int) := by
  have hS : Info.SampleDataSize < 2 ^ 32 := hrange.2.2.2
  unfold GetHeaderInfo at hsuccess ⊢
  simp only [if_true, hparse] at hsuccess ⊢
  by_cases h0 : Info.SampleDataSize = 0
  · simp [h0] at hsuccess
  · simp only [if_neg h0]
    exact headerSize_eq _ hS

/-- With a parsed header in range and at least one channel, `Decode` returns `true`
and the frame count is `(SampleDataSize / NumChannels) / 2`. -/
theorem Decode_of_parse {F : Type} (Engine : Collaborators F)
    (EncodedData : FEncodedAudioStruct) (DecodedData : FDecodedAudioStruct F)
    (Info : FSoundQualityInfo F)
    (hparse : Engine.ReadCompressedInfo EncodedData.AudioData = some Info)
    (hrange : Info.InRange) (hc : 1 ≤ Info.NumChannels) :
    ∃ Decoded, Decode true Engine EncodedData DecodedData = some (true, Decoded) ∧
      Decoded.PCMInfo.PCMNumOfFrames =
        (Info.SampleDataSize / Info.NumChannels.toNat) / 2 := by
  have hS : Info.SampleDataSize < 2 ^ 32 := hrange.2.2.2
  unfold Decode
  simp only [if_true, hparse, List.length_map, List.length_range,
    FramesOf_pos _ _ hS hc]
  exact ⟨_, rfl, rfl⟩

/-- A failed header parse makes `Decode` return `false` and leaves `DecodedData` as it
was. -/
theorem Decode_of_parse_failure {F : Type} (Engine : Collaborators F)
    (EncodedData : FEncodedAudioStruct) (DecodedData : FDecodedAudioStruct F)
    (hparse : Engine.ReadCompressedInfo EncodedData.AudioData = none) :
    Decode true Engine EncodedData DecodedData = some (false, DecodedData) := by
  unfold Decode
  simp [hparse]

/-- Arithmetic of the frame count: with `f = (S / n) / 2` and `n ≥ 1`,
`S = 2 * (n * f) + r` for the remainder `r = S mod (n * 2) < 2 * n`. -/
theorem frames_decomposition (S n : Nat) (hn : 1 ≤ n) :
    S = 2 * (n * ((S / n) / 2)) + S % (n * 2) ∧ S % (n * 2) < 2 * n := by
  have h1 : (S / n) / 2 = S / (n * 2) := Nat.div_div_eq_div_mul S n 2
  have h2 : (n * 2) * (S / (n * 2)) + S % (n * 2) = S := Nat.div_add_mod S (n * 2)
  have h3 : S % (n * 2) < n * 2 := Nat.mod_lt _ (by omega)
  rw [h1]
  constructor
  · have : 2 * (n * (S / (n * 2))) = (n * 2) * (S / (n * 2)) := by ring
    omega
  · omega

/-! ## Quality mapping: claims -/

/-- C1: `GetCompressionLevelFromQualityIndex` is monotonic and clamping.  For all
integers `q1 ≤ q2` the level for `q1` is at least the level for `q2`; every `q ≤ 1` gets
the level of quality 1, which is 4; every `q ≥ 40` gets the level of quality 40, which
is 0. -/
theorem GetCompressionLevel_monotone_clamping :
    (∀ q1 q2 : Int, q1 ≤ q2 →
      GetCompressionLevelFromQualityIndex q2 ≤ GetCompressionLevelFromQualityIndex q1) ∧
    (∀ q : Int, q ≤ 1 →
      GetCompressionLevelFromQualityIndex q = GetCompressionLevelFromQualityIndex 1) ∧
    GetCompressionLevelFromQualityIndex 1 = 4 ∧
    (∀ q : Int, 40 ≤ q →
      GetCompressionLevelFromQualityIndex q = GetCompressionLevelFromQualityIndex 40) ∧
    GetCompressionLevelFromQualityIndex 40 = 0 := by
  refine ⟨?_, ?_, ?_, ?_, ?_⟩
  · intro q1 q2 h
    rw [level_eq_map, level_eq_map]
    exact map_antitone q1 q2 h
  · intro q h
    rw [level_eq_map, level_eq_map]
    exact map_low q h
  · rw [level_eq_map]
    exact map_one
  · intro q h
    rw [level_eq_map, level_eq_map]
    exact map_high q h
  · rw [level_eq_map]
    exact map_forty

/-- Instance of C1 at the quality pairs (5, 30), (-7, 1) and (100, 40). -/
theorem GetCompressionLevel_monotone_clamping_witness :
    ((5 : Int) ≤ 30 ∧
      GetCompressionLevelFromQualityIndex 30 ≤ GetCompressionLevelFromQualityIndex 5) ∧
    ((-7 : Int) ≤ 1 ∧
      GetCompressionLevelFromQualityIndex (-7) = GetCompressionLevelFromQualityIndex 1) ∧
    ((40 : Int) ≤ 100 ∧
      GetCompressionLevelFromQualityIndex 100 = GetCompressionLevelFromQualityIndex 40) :=
  ⟨⟨by decide, GetCompressionLevel_monotone_clamping.1 5 30 (by decide)⟩,
   ⟨by decide, GetCompressionLevel_monotone_clamping.2.1 (-7) (by decide)⟩,
   ⟨by decide, GetCompressionLevel_monotone_clamping.2.2.2.1 100 (by decide)⟩⟩

/-- C10: `GetCompressionLevelFromQualityIndex` is the truncated linear interpolation
between (quality 1 → level 4) and (quality 40 → level 0): for every integer `q` the
result is `⌊4 * (40 - q') / 39⌋` with `q' = min (max q 1) 40`, in exact rational
arithmetic; the result is at most 4, quality 1 gives 4, quality 40 gives 0, and this is
the `Quality` argument with which `Encode` calls the compression engine for every
`uint8` quality. -/
theorem GetCompressionLevel_linear_interpolation :
    (∀ q : Int,
      (GetCompressionLevelFromQualityIndex q : Int) =
        ⌊(4 * (40 - ((min (max q 1) 40 : Int) : ℚ))) / 39⌋ ∧
      GetCompressionLevelFromQualityIndex q = QualityMapper_map q ∧
      GetCompressionLevelFromQualityIndex q ≤ 4) ∧
    GetCompressionLevelFromQualityIndex 1 = 4 ∧
    GetCompressionLevelFromQualityIndex 40 = 0 ∧
    (∀ (F : Type) (Engine : Collaborators F) (DecodedData : FDecodedAudioStruct F)
      (EncodedData : FEncodedAudioStruct) (Quality : Nat), Quality < 256 →
      (Encode true Engine DecodedData EncodedData Quality).2.AudioData =
        Engine.UECompressBinkAudio
          (Engine.TranscodeFloatToInt16 DecodedData.PCMInfo.PCMData
            (DecodedData.PCMInfo.PCMData.length : Int)).1
          (Engine.TranscodeFloatToInt16 DecodedData.PCMInfo.PCMData
            (DecodedData.PCMInfo.PCMData.length : Int)).2
          DecodedData.SoundWaveBasicInfo.SampleRate
          DecodedData.SoundWaveBasicInfo.NumOfChannels
          (QualityMapper_map (Quality : Int)) 1) := by
  refine ⟨?_, ?_, ?_, ?_⟩
  · intro q
    refine ⟨?_, level_eq_map q, level_le_four q⟩
    rw [level_eq_map]
    unfold QualityMapper_map
    exact Int.toNat_of_nonneg (Int.floor_nonneg.mpr (mapped_value_bounds q).1)
  · rw [level_eq_map]
    exact map_one
  · rw [level_eq_map]
    exact map_forty
  · intro F Engine DecodedData EncodedData Quality _
    rw [← level_eq_map]
    unfold Encode
    simp only [if_true]
    split <;> rfl

/-- Instance of C10: at quality 20 an engine that echoes its `Quality` argument receives
the interpolated level. -/
theorem GetCompressionLevel_linear_interpolation_witness :
    (20 : Nat) < 256 ∧
    (Encode true echoEngine (sampleDecoded []) emptyEncoded 20).2.AudioData =
      [QualityMapper_map ((20 : Nat) : Int)] :=
  ⟨by decide,
   GetCompressionLevel_linear_interpolation.2.2.2 Int echoEngine (sampleDecoded [])
     emptyEncoded 20 (by decide)⟩

/-! ## Format detection and header extraction: claims -/

/-- C2: with the header parser an arbitrary function from buffers to optional metadata,
`CheckAudioFormat` returns `true` exactly when the parse succeeds and the reported
`SampleDataSize` is non-zero, and `false` for every other buffer (parse failure, or a
parse reporting `SampleDataSize = 0`). -/
theorem CheckAudioFormat_true_iff {F : Type} (Engine : Collaborators F)
    (AudioData : List Nat) :
    (CheckAudioFormat true Engine AudioData = true ↔
      ∃ Info, Engine.ReadCompressedInfo AudioData = some Info ∧ Info.SampleDataSize ≠ 0) ∧
    (CheckAudioFormat true Engine AudioData = false ↔
      (Engine.ReadCompressedInfo AudioData = none ∨
        ∃ Info, Engine.ReadCompressedInfo AudioData = some Info ∧
          Info.SampleDataSize = 0)) := by
  unfold CheckAudioFormat
  simp only [if_true]
  cases hparse : Engine.ReadCompressedInfo AudioData with
  | none => simp
  | some Info =>
    by_cases hS : Info.SampleDataSize = 0
    · simp [hS]
    · simp [hS]


/-- C3 fails as stated: a header reporting `SampleDataSize = 3` with one channel is
accepted by `GetHeaderInfo`, which reports `PCMDataSize = 4`, not `2 * 3`. -/
theorem GetHeaderInfo_odd_size_counterexample :
    (sampleEngine (some (sampleInfo 1 3)) []).ReadCompressedInfo emptyEncoded.AudioData =
      some (sampleInfo 1 3) ∧
    (GetHeaderInfo true (sampleEngine (some (sampleInfo 1 3)) []) emptyEncoded
      sampleHeader).1 = true ∧
    (GetHeaderInfo true (sampleEngine (some (sampleInfo 1 3)) []) emptyEncoded
      sampleHeader).2.PCMDataSize = 4 ∧
    (GetHeaderInfo true (sampleEngine (some (sampleInfo 1 3)) []) emptyEncoded
      sampleHeader).2.PCMDataSize ≠ 2 * ((sampleInfo 1 3).SampleDataSize : Int) := by
  decide

/-- C3, amended: for every bitstream on which `GetHeaderInfo` succeeds, `PCMDataSize` is
`(SampleDataSize / 2) * 4` with truncating division, that is
`2 * SampleDataSize - 2 * (SampleDataSize mod 2)`; it equals `2 * SampleDataSize` exactly
when `SampleDataSize` is even. -/
theorem GetHeaderInfo_PCMDataSize {F : Type} (Engine : Collaborators F)
    (EncodedData : FEncodedAudioStruct) (HeaderInfo : FRuntimeAudioHeaderInfo F)
    (Info : FSoundQualityInfo F)
    (hparse : Engine.ReadCompressedInfo EncodedData.AudioData = some Info)
    (hrange : Info.InRange)
    (hsuccess : (GetHeaderInfo true Engine EncodedData HeaderInfo).1 = true) :
    (GetHeaderInfo true Engine EncodedData HeaderInfo).2.PCMDataSize =
      (((Info.SampleDataSize / 2) * 4 : Nat) : Int) ∧
    (GetHeaderInfo true Engine EncodedData HeaderInfo).2.PCMDataSize =
      2 * (Info.SampleDataSize : Int) - 2 * ((Info.SampleDataSize % 2 : Nat) : Int) ∧
    ((GetHeaderInfo true Engine EncodedData HeaderInfo).2.PCMDataSize =
      2 * (Info.SampleDataSize : Int) ↔ Info.SampleDataSize % 2 = 0) := by
  rw [GetHeaderInfo_size_of_success Engine EncodedData HeaderInfo Info hparse hrange
    hsuccess]
  refine ⟨rfl, ?_, ?_⟩ <;> omega

/-- Instance of the amended C3 at a header reporting 3 bytes of sample data. -/
theorem GetHeaderInfo_PCMDataSize_witness :
    (GetHeaderInfo true (sampleEngine (some (sampleInfo 1 3)) []) emptyEncoded
      sampleHeader).2.PCMDataSize = (((3 / 2) * 4 : Nat) : Int) :=
  (GetHeaderInfo_PCMDataSize (sampleEngine (some (sampleInfo 1 3)) []) emptyEncoded
    sampleHeader (sampleInfo 1 3) rfl
    ⟨by decide, by decide, by decide, by decide⟩ (by decide)).1

/-- C8: `GetHeaderInfo` is atomic on failure.  For every bitstream whose header parse
fails or reports `SampleDataSize = 0`, it returns `false` and the caller's `HeaderInfo`
is the record passed in, every field unchanged; and whenever it returns `false`
(including the build without Bink support) the record is unchanged. -/
theorem GetHeaderInfo_atomic_on_failure {F : Type} (Engine : Collaborators F)
    (EncodedData : FEncodedAudioStruct) (HeaderInfo : FRuntimeAudioHeaderInfo F) :
    ((Engine.ReadCompressedInfo EncodedData.AudioData = none ∨
        ∃ Info, Engine.ReadCompressedInfo EncodedData.AudioData = some Info ∧
          Info.SampleDataSize = 0) →
      GetHeaderInfo true Engine EncodedData HeaderInfo = (false, HeaderInfo)) ∧
    (∀ WITH_BINK_SUPPORT : Bool,
      (GetHeaderInfo WITH_BINK_SUPPORT Engine EncodedData HeaderInfo).1 = false →
      (GetHeaderInfo WITH_BINK_SUPPORT Engine EncodedData HeaderInfo).2 = HeaderInfo) := by
  constructor
  · intro h
    unfold GetHeaderInfo
    rcases h with h | ⟨Info, h, hS⟩
    · simp [h]
    · simp [h, hS]
  · intro W
    unfold GetHeaderInfo
    cases W with
    | false => simp
    | true =>
      simp only [if_true]
      cases hparse : Engine.ReadCompressedInfo EncodedData.AudioData with
      | none => simp
      | some Info =>
        by_cases hS : Info.SampleDataSize = 0
        · simp [hS]
        · simp [hS]

/-- Instance of C8 at a header that parses and reports zero bytes of sample data. -/
theorem GetHeaderInfo_atomic_on_failure_witness :
    GetHeaderInfo true (sampleEngine (some (sampleInfo 2 0)) []) emptyEncoded sampleHeader =
      (false, sampleHeader) :=
  (GetHeaderInfo_atomic_on_failure (sampleEngine (some (sampleInfo 2 0)) []) emptyEncoded
    sampleHeader).1 (Or.inr ⟨sampleInfo 2 0, rfl, rfl⟩)

/-! ## Decoding: claims -/

/-- C9: for every bitstream whose header parses with channel count `c ≥ 1` and native
decoded size `S` bytes, `Decode` succeeds and sets `PCMNumOfFrames` to `(S / c) / 2`
with truncating division; this is the largest integer `n` with `n * c * 2 ≤ S`, so the
frames never account for more bytes than were decompressed and fewer than `2 * c` bytes
are dropped. -/
theorem Decode_frame_count {F : Type} (Engine : Collaborators F)
    (EncodedData : FEncodedAudioStruct) (DecodedData : FDecodedAudioStruct F)
    (Info : FSoundQualityInfo F)
    (hparse : Engine.ReadCompressedInfo EncodedData.AudioData = some Info)
    (hrange : Info.InRange) (hc : 1 ≤ Info.NumChannels) :
    ∃ Decoded, Decode true Engine EncodedData DecodedData = some (true, Decoded) ∧
      (Decoded.PCMInfo.PCMNumOfFrames : Int) =
        Int.tdiv (Int.tdiv (Info.SampleDataSize : Int) Info.NumChannels) 2 ∧
      (Decoded.PCMInfo.PCMNumOfFrames : Int) * Info.NumChannels * 2 ≤
        (Info.SampleDataSize : Int) ∧
      (∀ n : Int, n * Info.NumChannels * 2 ≤ (Info.SampleDataSize : Int) →
        n ≤ (Decoded.PCMInfo.PCMNumOfFrames : Int)) ∧
      (Info.SampleDataSize : Int) -
        (Decoded.PCMInfo.PCMNumOfFrames : Int) * Info.NumChannels * 2 <
          2 * Info.NumChannels := by
  obtain ⟨Decoded, hdec, hframes⟩ :=
    Decode_of_parse Engine EncodedData DecodedData Info hparse hrange hc
  refine ⟨Decoded, hdec, ?_⟩
  obtain ⟨c, hcn⟩ := Int.eq_ofNat_of_zero_le (by omega : 0 ≤ Info.NumChannels)
  have hc1 : 1 ≤ c := by omega
  rw [hcn] at hframes ⊢
  rw [Int.toNat_ofNat] at hframes
  rw [hframes]
  obtain ⟨hdecomp, hrem⟩ := frames_decomposition Info.SampleDataSize c hc1
  generalize Info.SampleDataSize = S at hdecomp hrem ⊢
  have hS : (S : Int) = 2 * ((c : Int) * ((S / c / 2 : Nat) : Int)) +
      ((S % (c * 2) : Nat) : Int) := by exact_mod_cast hdecomp
  have hr : ((S % (c * 2) : Nat) : Int) < 2 * (c : Int) := by exact_mod_cast hrem
  have hr0 : (0 : Int) ≤ ((S % (c * 2) : Nat) : Int) := Int.ofNat_nonneg _
  have hcI : (1 : Int) ≤ (c : Int) := by exact_mod_cast hc1
  refine ⟨?_, ?_, ?_, ?_⟩
  · rw [← Int.ofNat_tdiv S c]
    exact Int.ofNat_tdiv (S / c) 2
  · nlinarith
  · intro n hn
    by_contra hlt
    push_neg at hlt
    have h1 : ((S / c / 2 : Nat) : Int) + 1 ≤ n := hlt
    have h2 : (((S / c / 2 : Nat) : Int) + 1) * (c : Int) ≤ n * (c : Int) :=
      mul_le_mul_of_nonneg_right h1 (by omega)
    nlinarith
  · nlinarith

/-- Instance of C9 at a header with 2 channels and 11 bytes of sample data. -/
theorem Decode_frame_count_witness :
    ∃ Decoded, Decode true (sampleEngine (some (sampleInfo 2 11)) []) emptyEncoded
        (sampleDecoded []) = some (true, Decoded) ∧
      (Decoded.PCMInfo.PCMNumOfFrames : Int) =
        Int.tdiv (Int.tdiv (((sampleInfo 2 11).SampleDataSize : Nat) : Int)
          (sampleInfo 2 11).NumChannels) 2 ∧
      (Decoded.PCMInfo.PCMNumOfFrames : Int) * (sampleInfo 2 11).NumChannels * 2 ≤
        (((sampleInfo 2 11).SampleDataSize : Nat) : Int) ∧
      (∀ n : Int, n * (sampleInfo 2 11).NumChannels * 2 ≤
          (((sampleInfo 2 11).SampleDataSize : Nat) : Int) →
        n ≤ (Decoded.PCMInfo.PCMNumOfFrames : Int)) ∧
      (((sampleInfo 2 11).SampleDataSize : Nat) : Int) -
        (Decoded.PCMInfo.PCMNumOfFrames : Int) * (sampleInfo 2 11).NumChannels * 2 <
          2 * (sampleInfo 2 11).NumChannels :=
  Decode_frame_count (sampleEngine (some (sampleInfo 2 11)) []) emptyEncoded
    (sampleDecoded []) (sampleInfo 2 11) rfl
    ⟨by decide, by decide, by decide, by decide⟩ (by decide)

/-- C4 fails as stated: a header reporting 4 channels and `SampleDataSize = 6` (less
than one frame) is accepted by both operations; `GetHeaderInfo` reports
`PCMDataSize = 12` while `Decode` computes 0 frames, and `0 * 4 * 4 ≠ 12`. -/
theorem header_size_vs_frames_counterexample :
    (GetHeaderInfo true (sampleEngine (some (sampleInfo 4 6)) []) emptyEncoded
      sampleHeader).1 = true ∧
    (GetHeaderInfo true (sampleEngine (some (sampleInfo 4 6)) []) emptyEncoded
      sampleHeader).2.PCMDataSize = 12 ∧
    (Decode true (sampleEngine (some (sampleInfo 4 6)) []) emptyEncoded
      (sampleDecoded [])).map (fun r => (r.1, r.2.PCMInfo.PCMNumOfFrames)) =
        some (true, 0) ∧
    (Decode true (sampleEngine (some (sampleInfo 4 6)) []) emptyEncoded
      (sampleDecoded [])).map
        (fun r => (r.2.PCMInfo.PCMNumOfFrames : Int) * (sampleInfo 4 6).NumChannels * 4) ≠
      some (GetHeaderInfo true (sampleEngine (some (sampleInfo 4 6)) []) emptyEncoded
        sampleHeader).2.PCMDataSize := by
  decide

/-- C4, amended: for every bitstream on which both `GetHeaderInfo` and `Decode` succeed
(same parsed metadata, channel count `c ≥ 1`, native size `S`), the frames never account
for more than the reported size, `PCMNumOfFrames * c * 4 ≤ PCMDataSize`; the two are
equal exactly when `S mod (2 * c) ≤ 1`, in particular whenever `S` is a whole number of
frames (`2 * c` divides `S`). -/
theorem header_size_vs_frames {F : Type} (Engine : Collaborators F)
    (EncodedData : FEncodedAudioStruct) (HeaderInfo : FRuntimeAudioHeaderInfo F)
    (DecodedData Decoded : FDecodedAudioStruct F) (Info : FSoundQualityInfo F)
    (hparse : Engine.ReadCompressedInfo EncodedData.AudioData = some Info)
    (hrange : Info.InRange) (hc : 1 ≤ Info.NumChannels)
    (hheader : (GetHeaderInfo true Engine EncodedData HeaderInfo).1 = true)
    (hdecode : Decode true Engine EncodedData DecodedData = some (true, Decoded)) :
    (Decoded.PCMInfo.PCMNumOfFrames : Int) * Info.NumChannels * 4 ≤
      (GetHeaderInfo true Engine EncodedData HeaderInfo).2.PCMDataSize ∧
    ((GetHeaderInfo true Engine EncodedData HeaderInfo).2.PCMDataSize =
        (Decoded.PCMInfo.PCMNumOfFrames : Int) * Info.NumChannels * 4 ↔
      (Info.SampleDataSize : Int) % (2 * Info.NumChannels) ≤ 1) ∧
    ((2 * Info.NumChannels) ∣ (Info.SampleDataSize : Int) →
      (GetHeaderInfo true Engine EncodedData HeaderInfo).2.PCMDataSize =
        (Decoded.PCMInfo.PCMNumOfFrames : Int) * Info.NumChannels * 4) := by
  have hsize :=
    GetHeaderInfo_size_of_success Engine EncodedData HeaderInfo Info hparse hrange hheader
  obtain ⟨Decoded2, hdec, hframes⟩ :=
    Decode_of_parse Engine EncodedData DecodedData Info hparse hrange hc
  rw [hdecode] at hdec
  have hD : Decoded = Decoded2 := by
    have := Option.some.inj hdec
    exact (Prod.mk.inj this).2
  subst hD
  obtain ⟨c, hcn⟩ := Int.eq_ofNat_of_zero_le (by omega : 0 ≤ Info.NumChannels)
  have hc1 : 1 ≤ c := by omega
  rw [hcn] at hframes ⊢
  rw [Int.toNat_ofNat] at hframes
  rw [hframes, hsize]
  obtain ⟨hdecomp, hrem⟩ := frames_decomposition Info.SampleDataSize c hc1
  generalize Info.SampleDataSize = S at hdecomp hrem ⊢
  have hmodI : (S : Int) % (2 * (c : Int)) = ((S % (c * 2) : Nat) : Int) := by
    rw [mul_comm 2 (c : Int)]
    norm_cast
  have hprod : ((S / c / 2 : Nat) : Int) * (c : Int) * 4 =
      ((4 * (c * (S / c / 2)) : Nat) : Int) := by
    push_cast
    ring
  have hdvd : (2 * (c : Int)) ∣ (S : Int) → S % (c * 2) = 0 := by
    intro hd
    have h0 := Int.emod_eq_zero_of_dvd hd
    rw [hmodI] at h0
    exact_mod_cast h0
  rw [hmodI, hprod]
  generalize c * (S / c / 2) = t at hdecomp ⊢
  generalize S % (c * 2) = r at hdecomp hrem hdvd ⊢
  refine ⟨?_, ?_, ?_⟩
  · omega
  · omega
  · intro hd
    have := hdvd hd
    omega

/-- Instance of the amended C4 at a header with 2 channels and 8 bytes of sample data
(two whole frames): the reported size 16 equals `2 * 2 * 4`. -/
theorem header_size_vs_frames_witness :
    (GetHeaderInfo true (sampleEngine (some (sampleInfo 2 8)) []) emptyEncoded
      sampleHeader).2.PCMDataSize =
        (twoFramesDecoded.PCMInfo.PCMNumOfFrames : Int) * (sampleInfo 2 8).NumChannels * 4 :=
  (header_size_vs_frames (sampleEngine (some (sampleInfo 2 8)) []) emptyEncoded
    sampleHeader (sampleDecoded []) twoFramesDecoded (sampleInfo 2 8) rfl
    ⟨by decide, by decide, by decide, by decide⟩ (by decide) (by decide)
    (by decide)).2.2 (by decide)

/-- C5, evaluated at the failing input: a header that parses with one channel and
reports `SampleDataSize = 0` is rejected by `CheckAudioFormat` and by `GetHeaderInfo`,
and `Decode` returns `true` on it, with zero frames and an empty PCM buffer. -/
theorem Decode_accepts_zero_size_header :
    CheckAudioFormat true (sampleEngine (some (sampleInfo 1 0)) [])
      emptyEncoded.AudioData = false ∧
    (GetHeaderInfo true (sampleEngine (some (sampleInfo 1 0)) []) emptyEncoded
      sampleHeader).1 = false ∧
    (Decode true (sampleEngine (some (sampleInfo 1 0)) []) emptyEncoded
      (sampleDecoded [])).map
        (fun r => (r.1, r.2.PCMInfo.PCMNumOfFrames, r.2.PCMInfo.PCMData)) =
      some (true, 0, []) := by
  decide

/-! ## Encoding: claims -/

/-- C6 fails as stated: for a PCM buffer with zero samples and an engine that returns
the two-byte bitstream `[66, 67]`, `Encode` returns `true`. -/
theorem Encode_empty_input_counterexample :
    (sampleDecoded []).PCMInfo.PCMData.length = 0 ∧
    Encode true (sampleEngine none [66, 67]) (sampleDecoded []) emptyEncoded 20 =
      (true, { AudioData := [66, 67], AudioFormat := ERuntimeAudioFormat.Invalid }) := by
  decide

/-- C6, amended: for every decoded audio whose PCM buffer has zero samples and every
quality, `Encode` transcodes and compresses the empty buffer and returns `false` exactly
when the bitstream the engine returns for it is empty; it never returns `true` with a
zero-length bitstream. -/
theorem Encode_empty_input {F : Type} (Engine : Collaborators F)
    (DecodedData : FDecodedAudioStruct F) (EncodedData : FEncodedAudioStruct)
    (Quality : Nat) (hempty : DecodedData.PCMInfo.PCMData = []) :
    ((Encode true Engine DecodedData EncodedData Quality).1 = false ↔
      Engine.UECompressBinkAudio (Engine.TranscodeFloatToInt16 [] 0).1
        (Engine.TranscodeFloatToInt16 [] 0).2
        DecodedData.SoundWaveBasicInfo.SampleRate
        DecodedData.SoundWaveBasicInfo.NumOfChannels
        (GetCompressionLevelFromQualityIndex (Quality : Int)) 1 = []) ∧
    ¬ ((Encode true Engine DecodedData EncodedData Quality).1 = true ∧
      (Encode true Engine DecodedData EncodedData Quality).2.AudioData.length = 0) := by
  unfold Encode
  simp only [if_true, hempty, List.length_nil, Int.ofNat_zero]
  cases hout : Engine.UECompressBinkAudio (Engine.TranscodeFloatToInt16 [] 0).1
      (Engine.TranscodeFloatToInt16 [] 0).2
      DecodedData.SoundWaveBasicInfo.SampleRate
      DecodedData.SoundWaveBasicInfo.NumOfChannels
      (GetCompressionLevelFromQualityIndex (Quality : Int)) 1 with
  | nil => simp
  | cons b bs =>
    have hpos : ¬ ((bs.length : Int) + 1 ≤ 0) := by omega
    simp [hpos]

/-- Instance of the amended C6 at an engine that returns the empty bitstream. -/
theorem Encode_empty_input_witness :
    (Encode true (sampleEngine none []) (sampleDecoded []) emptyEncoded 20).1 = false :=
  (Encode_empty_input (sampleEngine none []) (sampleDecoded []) emptyEncoded 20 rfl).1.mpr
    rfl

/-- C7: with the compression engine an arbitrary function returning a byte buffer,
`Encode` stores the engine's bitstream in `EncodedData` and returns `true` if and only
if that bitstream is non-empty: a `true` result means the stored bitstream has positive
length, and a zero-length bitstream from the engine means `false`. -/
theorem Encode_success_iff_nonempty {F : Type} (Engine : Collaborators F)
    (DecodedData : FDecodedAudioStruct F) (EncodedData : FEncodedAudioStruct)
    (Quality : Nat) :
    (Encode true Engine DecodedData EncodedData Quality).2.AudioData =
      Engine.UECompressBinkAudio
        (Engine.TranscodeFloatToInt16 DecodedData.PCMInfo.PCMData
          (DecodedData.PCMInfo.PCMData.length : Int)).1
        (Engine.TranscodeFloatToInt16 DecodedData.PCMInfo.PCMData
          (DecodedData.PCMInfo.PCMData.length : Int)).2
        DecodedData.SoundWaveBasicInfo.SampleRate
        DecodedData.SoundWaveBasicInfo.NumOfChannels
        (GetCompressionLevelFromQualityIndex (Quality : Int)) 1 ∧
    ((Encode true Engine DecodedData EncodedData Quality).1 = true ↔
      0 < (Encode true Engine DecodedData EncodedData Quality).2.AudioData.length) ∧
    ((Encode true Engine DecodedData EncodedData Quality).1 = false ↔
      (Encode true Engine DecodedData EncodedData Quality).2.AudioData = []) := by
  unfold Encode
  simp only [if_true]
  cases hout : Engine.UECompressBinkAudio
      (Engine.TranscodeFloatToInt16 DecodedData.PCMInfo.PCMData
        (DecodedData.PCMInfo.PCMData.length : Int)).1
      (Engine.TranscodeFloatToInt16 DecodedData.PCMInfo.PCMData
        (DecodedData.PCMInfo.PCMData.length : Int)).2
      DecodedData.SoundWaveBasicInfo.SampleRate
      DecodedData.SoundWaveBasicInfo.NumOfChannels
      (GetCompressionLevelFromQualityIndex (Quality : Int)) 1 with
  | nil => simp
  | cons b bs =>
    have hpos : ¬ ((bs.length : Int) + 1 ≤ 0) := by omega
    simp [hpos]

end BinkRuntimeCodec
